import Mathlib

/-!
Verification of the data pipeline of `prototipo_dashboard_agua.py`
(AquaFlow): loading (`load_data`), derivation (`preprocess`),
aggregation (`aggregate_period`) and leak detection (`detect_leaks`).

Timestamps are modelled as integer seconds since the epoch; all flow
rates and volumes are exact rationals (the Python code uses floats, but
every claim under test is about exact arithmetic identities, so ℚ is the
faithful idealisation).  Fallible steps return `Except`/`Option`.
-/

namespace AquaFlow

/-- One raw CSV row before timestamp parsing.  `ts_raw = none` models a
timestamp string that `pd.to_datetime` cannot parse; `geral = none` and
`sensors` entries `none` model missing/non-numeric flow cells (which
`pd.to_numeric(..., errors='coerce').fillna(0)` coerces to 0). -/
structure RawRow where
  ts_raw : Option Int
  geral : Option ℚ
  sensors : List (Option ℚ)
deriving DecidableEq

/-- A row of the loaded table: parsed timestamp plus the raw flow cells. -/
structure Reading where
  ts : Int
  geral : Option ℚ
  sensors : List (Option ℚ)
deriving DecidableEq

/-- A row after `preprocess`: the columns added by the code
(`geral_lps`, `soma_sensores_lps`, `delta_s`, `volume_geral_l`,
`volume_sensores_l`, `diff_lps`) plus the numeric sensor columns. -/
structure DerivedReading where
  ts : Int
  geral_lps : ℚ
  soma_sensores_lps : ℚ
  sensors : List ℚ
  delta_s : ℚ
  volume_geral_l : ℚ
  volume_sensores_l : ℚ
  diff_lps : ℚ
deriving DecidableEq

/-- Classification tag of a leak event (`typ` in the code). -/
inductive LeakType
  | hidden_leak
  | mismatch
deriving DecidableEq

/-- One row of the DataFrame returned by `detect_leaks`. -/
structure LeakEvent where
  start : Int
  stop : Int
  duration_s : ℚ
  max_diff_lps : ℚ
  type : LeakType
  volume_l : ℚ
deriving DecidableEq

/-- `THRESH_LPS = 0.2` (module constant). -/
def THRESH_LPS : ℚ := 1/5

/-- `TARIFA_POR_M3 = 4.50` (module constant). -/
def TARIFA_POR_M3 : ℚ := 9/2

/-- Default values used with `List.getD` in theorem statements. -/
def dfltReading : Reading := { ts := 0, geral := none, sensors := [] }

def dfltDerived : DerivedReading :=
  { ts := 0, geral_lps := 0, soma_sensores_lps := 0, sensors := [],
    delta_s := 0, volume_geral_l := 0, volume_sensores_l := 0, diff_lps := 0 }

/-! ## detect_leaks -/

/-- Anomaly test of one row, lines 138-140 of the source:
`is_mismatch = diff > threshold_lps`,
`is_hidden_leak = (soma == 0) and (geral > 0)`,
row is anomalous when `is_mismatch or is_hidden_leak`. -/
def isAnomalous (thr : ℚ) (r : DerivedReading) : Bool :=
  decide (thr < r.diff_lps) ||
    (decide (r.soma_sensores_lps = 0) && decide (0 < r.geral_lps))

/-- The scan loop of `detect_leaks` (lines 134-167) reduced to the runs
it buffers: the state is `none` when `in_alert` is false and
`some (b0, tl)` when `in_alert` is true with buffer `alert_rows = b0 :: tl`
(the code sets `in_alert = True` and immediately appends, so the buffer
is never empty while `in_alert`).  An anomalous row opens or extends the
buffer; a non-anomalous row after a run closes and emits it; the
end-of-stream branch (lines 160-167) emits the still-open buffer. -/
def detect_go (thr : ℚ) :
    List DerivedReading → Option (DerivedReading × List DerivedReading) →
    List (DerivedReading × List DerivedReading)
  | [], none => []
  | [], some st => [st]
  | r :: rs, none =>
    if isAnomalous thr r then detect_go thr rs (some (r, []))
    else detect_go thr rs none
  | r :: rs, some (b0, tl) =>
    if isAnomalous thr r then detect_go thr rs (some (b0, tl ++ [r]))
    else (b0, tl) :: detect_go thr rs none

/-- The maximal runs of consecutive anomalous rows found by the scan. -/
def detect_runs (thr : ℚ) (df : List DerivedReading) :
    List (DerivedReading × List DerivedReading) :=
  detect_go thr df none

/-- The event summary computed at each of the two close-out sites
(lines 148-156 and 160-167), from the buffered run `b0 :: tl`:
`start = times[0]`, `end = times[-1]`,
`duration = (times[-1]-times[0]).total_seconds() if len(times) > 1 else
rows['delta_s'].sum()`, `max_diff = rows['diff_lps'].max()`,
`vol = rows['volume_geral_l'].sum()`, and `typ = 'hidden_leak'` iff all
buffered `soma_sensores_lps` are 0 and some `geral_lps` is positive. -/
def closeEvent (b0 : DerivedReading) (tl : List DerivedReading) : LeakEvent :=
  let buf := b0 :: tl
  let lastR := buf.getLast (List.cons_ne_nil b0 tl)
  { start := b0.ts
    stop := lastR.ts
    duration_s :=
      if 1 < buf.length then ((lastR.ts - b0.ts : Int) : ℚ)
      else (buf.map fun r => r.delta_s).sum
    max_diff_lps := tl.foldl (fun m r => max m r.diff_lps) b0.diff_lps
    type :=
      if (∀ r ∈ buf, r.soma_sensores_lps = 0) ∧ (∃ r ∈ buf, 0 < r.geral_lps)
      then LeakType.hidden_leak else LeakType.mismatch
    volume_l := (buf.map fun r => r.volume_geral_l).sum }

/-- `detect_leaks` (lines 124-169): empty input yields the empty alert
table; otherwise each buffered run is summarised into one event row. -/
def detect_leaks (df : List DerivedReading) (thr : ℚ) : List LeakEvent :=
  (detect_runs thr df).map fun p => closeEvent p.1 p.2

/-! ## preprocess -/

/-- `pd.to_numeric(x, errors='coerce').fillna(0)`: a missing or
non-numeric cell becomes 0. -/
def coerceNum (x : Option ℚ) : ℚ := x.getD 0

/-- The derived columns of one row (lines 86-104), given `delta_s = dt`:
`geral_lps = geral / 60`, numeric sensors, `soma_sensores_lps`,
`volume_geral_l = geral_lps * delta_s`,
`volume_sensores_l = soma_sensores_lps * delta_s`,
`diff_lps = |geral_lps - soma_sensores_lps|`. -/
def mkDerived (dt : ℚ) (r : Reading) : DerivedReading :=
  let g := coerceNum r.geral / 60
  let sv := r.sensors.map coerceNum
  let s := sv.sum
  { ts := r.ts, geral_lps := g, soma_sensores_lps := s, sensors := sv,
    delta_s := dt, volume_geral_l := g * dt, volume_sensores_l := s * dt,
    diff_lps := |g - s| }

/-- Rows after the first: `delta_s` is the difference to the previous
row's timestamp in seconds (`df.index.to_series().diff().dt.total_seconds()`). -/
def preprocessGo (prev : Int) : List Reading → List DerivedReading
  | [] => []
  | r :: rs => mkDerived ((r.ts - prev : Int) : ℚ) r :: preprocessGo r.ts rs

/-- `preprocess` (lines 80-106): empty in, empty out; otherwise the
first row gets `delta_s = 1` (the `.fillna(1)` on the diff) and each
later row the timestamp difference to its predecessor. -/
def preprocess : List Reading → List DerivedReading
  | [] => []
  | r :: rs => mkDerived 1 r :: preprocessGo r.ts rs

/-! ## aggregate_period

`df.resample(freq)` is pandas behaviour: readings are assigned to fixed
calendar buckets and each bucket is labelled the way pandas labels it —
by the bucket's left edge for `'T'`/`'H'`/`'D'`, and by the right edge
(the ending Sunday, resp. the last day of the month) for `'W'` and
`'M'`, whose resampler defaults are `closed='right', label='right'`.
Timestamps are seconds since 1970-01-01 (epoch day 0 = Thursday;
epoch day 3 = Sunday 1970-01-04).  The calendar conversion is Howard
Hinnant's civil-calendar algorithm on integer days. -/

inductive Freq
  | T
  | H
  | D
  | W
  | M
deriving DecidableEq

/-- Proleptic Gregorian (year, month, day) of an epoch day count. -/
def civilFromDays (z0 : Int) : Int × Int × Int :=
  let z := z0 + 719468
  let era := Int.fdiv z 146097
  let doe := z - era * 146097
  let yoe := Int.fdiv (doe - Int.fdiv doe 1460 + Int.fdiv doe 36524 - Int.fdiv doe 146096) 365
  let y := yoe + era * 400
  let doy := doe - (365 * yoe + Int.fdiv yoe 4 - Int.fdiv yoe 100)
  let mp := Int.fdiv (5 * doy + 2) 153
  let d := doy - Int.fdiv (153 * mp + 2) 5 + 1
  let m := mp + (if mp < 10 then 3 else -9)
  (if m ≤ 2 then y + 1 else y, m, d)

/-- Epoch day count of a proleptic Gregorian date. -/
def daysFromCivil (y0 m d : Int) : Int :=
  let y := if m ≤ 2 then y0 - 1 else y0
  let era := Int.fdiv y 400
  let yoe := y - era * 400
  let doy := Int.fdiv (153 * (m + (if 2 < m then -3 else 9)) + 2) 5 + d - 1
  let doe := yoe * 365 + Int.fdiv yoe 4 - Int.fdiv yoe 100 + doy
  era * 146097 + doe - 719468

def isLeapYear (y : Int) : Bool :=
  decide (Int.emod y 4 = 0) &&
    (decide (Int.emod y 100 ≠ 0) || decide (Int.emod y 400 = 0))

def lastDayOfMonth (y m : Int) : Int :=
  if m = 2 then (if isLeapYear y then 29 else 28)
  else if m = 4 ∨ m = 6 ∨ m = 9 ∨ m = 11 then 30
  else 31

/-- The pandas bucket label of a timestamp for each resample frequency. -/
def bucketKey : Freq → Int → Int
  | Freq.T, t => 60 * Int.fdiv t 60
  | Freq.H, t => 3600 * Int.fdiv t 3600
  | Freq.D, t => 86400 * Int.fdiv t 86400
  | Freq.W, t =>
    let d := Int.fdiv t 86400
    86400 * (d + Int.emod (3 - d) 7)
  | Freq.M, t =>
    let d := Int.fdiv t 86400
    match civilFromDays d with
    | (y, m, _) => 86400 * daysFromCivil y m (lastDayOfMonth y m)

/-- Pointwise sum of the per-sensor columns (shorter rows padded). -/
def addVec : List ℚ → List ℚ → List ℚ
  | [], ys => ys
  | x :: xs, [] => x :: xs
  | x :: xs, y :: ys => (x + y) :: addVec xs ys

def sumVec (ls : List (List ℚ)) : List ℚ := ls.foldr addVec []

/-- One row of the aggregated DataFrame: the resample label (`key`), the
summed columns, and the derived `m3` and `custo_R$` columns. -/
structure AggRow where
  key : Int
  volume_geral_l : ℚ
  volume_sensores_l : ℚ
  sensors : List ℚ
  m3 : ℚ
  custo : ℚ
deriving DecidableEq

def dfltAgg : AggRow :=
  { key := 0, volume_geral_l := 0, volume_sensores_l := 0, sensors := [],
    m3 := 0, custo := 0 }

/-- The aggregated row of one bucket: `volume_geral_l`,
`volume_sensores_l` and each sensor column are summed over the rows
falling in the bucket (lines 113-117); `m3 = volume_geral_l / 1000` and
`custo_R$ = m3 * TARIFA_POR_M3` (lines 119-120). -/
def bucketRow (freq : Freq) (df : List DerivedReading) (k : Int) : AggRow :=
  let grp := df.filter fun r => decide (bucketKey freq r.ts = k)
  let vg := (grp.map fun r => r.volume_geral_l).sum
  { key := k
    volume_geral_l := vg
    volume_sensores_l := (grp.map fun r => r.volume_sensores_l).sum
    sensors := sumVec (grp.map fun r => r.sensors)
    m3 := vg / 1000
    custo := vg / 1000 * TARIFA_POR_M3 }

/-- `aggregate_period` (lines 109-121): empty in, empty out; otherwise
one aggregated row per occupied bucket, in ascending label order.
(pandas also zero-fills unoccupied buckets between the first and last
label; those all-zero rows play no role in any claim and are omitted.) -/
def aggregate_period (df : List DerivedReading) (freq : Freq) : List AggRow :=
  match df with
  | [] => []
  | _ =>
    let keys := ((df.map fun r => bucketKey freq r.ts).dedup).mergeSort
      fun a b => decide (a ≤ b)
    keys.map (bucketRow freq df)

/-! ## load_data -/

/-- `pd.to_datetime(df[TIMESTAMP_COL])` (line 70): parses the whole
timestamp column, failing (raising) as soon as any cell is unparseable
(the pandas default is `errors='raise'`). -/
def parseTimestamps : List RawRow → Option (List Reading)
  | [] => some []
  | r :: rs =>
    match r.ts_raw, parseTimestamps rs with
    | some t, some rest => some ({ ts := t, geral := r.geral, sensors := r.sensors } :: rest)
    | _, _ => none

/-- `load_data` (lines 59-77): a missing file yields an empty table
(lines 61-64); otherwise the timestamp column is parsed — an
unparseable cell propagates as an exception — and the rows are sorted
ascending by timestamp (`df.sort_values(TIMESTAMP_COL)`, line 71).
`none` models an absent file, `Except.error ()` a raised exception. -/
def load_data : Option (List RawRow) → Except Unit (List Reading)
  | none => Except.ok []
  | some rows =>
    match parseTimestamps rows with
    | none => Except.error ()
    | some rs => Except.ok (rs.mergeSort fun a b => decide (a.ts ≤ b.ts))

/-! ## object-identity model of `preprocess` (for the frame claim)

A pandas DataFrame is a mutable object; `preprocess` receives a
reference to the caller's object.  Here a heap is a list of table
objects and a reference is an index into it.  `TableVal` carries the
raw rows together with the derived columns, `none` until they are
added. -/

structure TableVal where
  rows : List Reading
  derived : Option (List DerivedReading)
deriving DecidableEq

def dfltTable : TableVal := { rows := [], derived := none }

/-- The in-place column assignments of lines 88-104, applied to one
table object: they attach the derived columns computed from its rows. -/
def setDerivedCols (t : TableVal) : TableVal :=
  { t with derived := some (preprocess t.rows) }

/-- `preprocess` at the object level: on an empty table the argument
object itself is returned untouched (line 83-84); otherwise
`df = df.copy()` (line 87) allocates a fresh object at the end of the
heap and all column assignments go to that fresh object.  Returns the
updated heap and the reference to the result object. -/
def preprocess_heap (h : List TableVal) (i : Nat) : List TableVal × Nat :=
  let t := h.getD i dfltTable
  if t.rows = [] then (h, i)
  else ((h ++ [t]).set h.length (setDerivedCols t), h.length)

/-! ## Theorems -/

/-- The five readings of the spec's concrete scenario: t = 0..4 s,
`general_rate_normalized = [0,0,1,1,0]`, `sensor_rate_sum = 0`,
`elapsed_seconds = 1` for each reading (hence
`volume_general = general_rate_normalized` and
`rate_discrepancy = general_rate_normalized`). -/
def scenarioRow (t : Int) (g : ℚ) : DerivedReading :=
  { ts := t, geral_lps := g, soma_sensores_lps := 0, sensors := [0, 0, 0, 0],
    delta_s := 1, volume_geral_l := g, volume_sensores_l := 0, diff_lps := g }

def scenarioDf : List DerivedReading :=
  [scenarioRow 0 0, scenarioRow 1 0, scenarioRow 2 1, scenarioRow 3 1,
   scenarioRow 4 0]

/-- C1: on the input sequence of five DerivedReadings at t = 0,1,2,3,4 s
with general rates [0,0,1,1,0], all sensor sums 0, elapsed 1 s each, and
threshold 0.2, `detect_leaks` returns exactly one LeakEvent of type
`hidden_leak` with start = t2, end = t3, duration_s = 1 and
volume_l = 2. -/
theorem claim1_concrete_scenario :
    detect_leaks scenarioDf THRESH_LPS =
      [{ start := 2, stop := 3, duration_s := 1, max_diff_lps := 1,
         type := LeakType.hidden_leak, volume_l := 2 }] := by
  norm_num [detect_leaks, detect_runs, detect_go, isAnomalous, closeEvent,
    THRESH_LPS, scenarioDf, scenarioRow, List.getLast]

/-- C9: an absent source or an empty input is propagated as an empty
output by every stage, never as an error: `load_data` of a missing file
returns the empty table, and `preprocess`, `aggregate_period` and
`detect_leaks` map empty inputs to empty outputs (all four are total
functions of their inputs, so no exception is possible). -/
theorem claim9_empty_inputs :
    load_data none = Except.ok [] ∧ preprocess [] = [] ∧
      (∀ freq, aggregate_period [] freq = []) ∧
      (∀ thr, detect_leaks [] thr = []) :=
  ⟨rfl, rfl, fun _ => rfl, fun _ => rfl⟩

section FrameLemmas

variable {α : Type}

lemma getD_append_set_last (l : List α) (x u d : α) :
    ∀ i, i < l.length → ((l ++ [x]).set l.length u).getD i d = l.getD i d := by
  induction l with
  | nil => intro i hi; exact absurd hi (by simp)
  | cons a l ih =>
    intro i hi
    cases i with
    | zero => rfl
    | succ n =>
      have hn : n < l.length := by simpa using hi
      simp only [List.length_cons, List.cons_append, List.set_cons_succ,
        List.getD_cons_succ]
      exact ih n hn

lemma getD_set_last (l : List α) (x u d : α) :
    ((l ++ [x]).set l.length u).getD l.length d = u := by
  induction l with
  | nil => rfl
  | cons a l ih =>
    simp only [List.length_cons, List.cons_append, List.set_cons_succ,
      List.getD_cons_succ]
    exact ih

end FrameLemmas

/-- C10: `preprocess` leaves its argument object unchanged.  In the heap
model, for any reference `i` into the heap, after `preprocess_heap` the
object at `i` is exactly what it was before the call; moreover on a
non-empty table the result is a fresh reference (the `df.copy()` of
line 87), distinct from `i`, holding the original rows plus the derived
columns. -/
theorem claim10_preprocess_frame (h : List TableVal) (i : Nat)
    (hi : i < h.length) :
    ((preprocess_heap h i).1).getD i dfltTable = h.getD i dfltTable ∧
      ((h.getD i dfltTable).rows ≠ [] →
        (preprocess_heap h i).2 = h.length ∧ (preprocess_heap h i).2 ≠ i ∧
          ((preprocess_heap h i).1).getD (preprocess_heap h i).2 dfltTable =
            setDerivedCols (h.getD i dfltTable)) := by
  by_cases hr : (h.getD i dfltTable).rows = []
  · refine ⟨?_, fun hcon => absurd hr hcon⟩
    show ((if (h.getD i dfltTable).rows = [] then (h, i)
      else ((h ++ [h.getD i dfltTable]).set h.length
        (setDerivedCols (h.getD i dfltTable)), h.length)).1).getD i dfltTable =
      h.getD i dfltTable
    rw [if_pos hr]
  · have hstep : preprocess_heap h i =
        ((h ++ [h.getD i dfltTable]).set h.length
          (setDerivedCols (h.getD i dfltTable)), h.length) := by
      show (if (h.getD i dfltTable).rows = [] then (h, i)
        else ((h ++ [h.getD i dfltTable]).set h.length
          (setDerivedCols (h.getD i dfltTable)), h.length)) = _
      rw [if_neg hr]
    refine ⟨?_, fun _ => ⟨?_, ?_, ?_⟩⟩
    · rw [hstep]
      exact getD_append_set_last h _ _ dfltTable i hi
    · rw [hstep]
    · rw [hstep]
      show h.length ≠ i
      omega
    · rw [hstep]
      exact getD_set_last h _ _ dfltTable

/-- Witness data for C10: a one-table heap. -/
def witnessReading : Reading :=
  { ts := 5, geral := some 60, sensors := [some 1, none] }

def witnessHeap : List TableVal :=
  [{ rows := [witnessReading], derived := none }]

theorem claim10_witness :
    (0 : Nat) < witnessHeap.length ∧
      ((preprocess_heap witnessHeap 0).1).getD 0 dfltTable =
        witnessHeap.getD 0 dfltTable :=
  ⟨by decide, (claim10_preprocess_frame witnessHeap 0 (by decide)).1⟩

/-! ### C6: preprocess derivation -/

lemma preprocessGo_length (prev : Int) (rs : List Reading) :
    (preprocessGo prev rs).length = rs.length := by
  induction rs generalizing prev with
  | nil => rfl
  | cons r rs ih => simp [preprocessGo, ih]

lemma preprocess_length (rs : List Reading) :
    (preprocess rs).length = rs.length := by
  cases rs with
  | nil => rfl
  | cons r rs => simp [preprocess, preprocessGo_length]

lemma preprocessGo_getD (rs : List Reading) (prev : Int) :
    ∀ i, i < rs.length →
      (preprocessGo prev rs).getD i dfltDerived =
        mkDerived (((rs.getD i dfltReading).ts -
            (if i = 0 then prev else (rs.getD (i - 1) dfltReading).ts) : Int) : ℚ)
          (rs.getD i dfltReading) := by
  induction rs generalizing prev with
  | nil => intro i hi; exact absurd hi (by simp)
  | cons r rs ih =>
    intro i hi
    cases i with
    | zero => rfl
    | succ n =>
      have hn : n < rs.length := by simpa using hi
      simp only [preprocessGo, List.getD_cons_succ, Nat.succ_ne_zero, if_false,
        Nat.add_sub_cancel]
      rw [ih r.ts n hn]
      cases n with
      | zero => simp
      | succ m => simp

lemma preprocess_getD (rs : List Reading) :
    ∀ i, i < rs.length →
      (preprocess rs).getD i dfltDerived =
        mkDerived (if i = 0 then 1 else
            (((rs.getD i dfltReading).ts - (rs.getD (i - 1) dfltReading).ts : Int) : ℚ))
          (rs.getD i dfltReading) := by
  cases rs with
  | nil => intro i hi; exact absurd hi (by simp)
  | cons r rs =>
    intro i hi
    cases i with
    | zero => rfl
    | succ n =>
      have hn : n < rs.length := by simpa using hi
      simp only [preprocess, List.getD_cons_succ, Nat.succ_ne_zero, if_false,
        Nat.add_sub_cancel]
      rw [preprocessGo_getD rs r.ts n hn]
      cases n with
      | zero => simp
      | succ m => simp

/-- C6: `preprocess` maps a Reading sequence to an equal-length
DerivedReading sequence in which, at every index i:
`geral_lps` is the general-flow value (0 when missing/non-numeric)
divided by 60; `soma_sensores_lps` is the sum of the coerced sensor
rates; `delta_s` is 1 at i = 0 and the timestamp difference to the
previous row (in seconds) at i > 0;
`volume_geral_l = geral_lps * delta_s`;
`volume_sensores_l = soma_sensores_lps * delta_s`; and
`diff_lps = |geral_lps - soma_sensores_lps|`. -/
theorem claim6_preprocess_fields (rs : List Reading) (i : Nat)
    (hi : i < rs.length) :
    (preprocess rs).length = rs.length ∧
      ((preprocess rs).getD i dfltDerived).geral_lps =
        coerceNum (rs.getD i dfltReading).geral / 60 ∧
      ((preprocess rs).getD i dfltDerived).soma_sensores_lps =
        ((rs.getD i dfltReading).sensors.map coerceNum).sum ∧
      (i = 0 → ((preprocess rs).getD i dfltDerived).delta_s = 1) ∧
      (0 < i → ((preprocess rs).getD i dfltDerived).delta_s =
        (((rs.getD i dfltReading).ts - (rs.getD (i - 1) dfltReading).ts : Int) : ℚ)) ∧
      ((preprocess rs).getD i dfltDerived).volume_geral_l =
        ((preprocess rs).getD i dfltDerived).geral_lps *
          ((preprocess rs).getD i dfltDerived).delta_s ∧
      ((preprocess rs).getD i dfltDerived).volume_sensores_l =
        ((preprocess rs).getD i dfltDerived).soma_sensores_lps *
          ((preprocess rs).getD i dfltDerived).delta_s ∧
      ((preprocess rs).getD i dfltDerived).diff_lps =
        |((preprocess rs).getD i dfltDerived).geral_lps -
          ((preprocess rs).getD i dfltDerived).soma_sensores_lps| := by
  rw [preprocess_getD rs i hi]
  refine ⟨preprocess_length rs, rfl, rfl, ?_, ?_, rfl, rfl, rfl⟩
  · intro h0
    simp [mkDerived, h0]
  · intro hpos
    have : ¬ i = 0 := by omega
    simp [mkDerived, this]

/-- Witness data for C6: two readings 7 seconds apart, the second with
a missing general-flow cell. -/
def witnessReadA : Reading :=
  { ts := 10, geral := some 120, sensors := [some 1, some 2] }

def witnessReadB : Reading :=
  { ts := 17, geral := none, sensors := [none, some 3] }

theorem claim6_witness :
    1 < ([witnessReadA, witnessReadB] : List Reading).length ∧
      (0 < 1 →
        ((preprocess [witnessReadA, witnessReadB]).getD 1 dfltDerived).delta_s =
          ((([witnessReadA, witnessReadB].getD 1 dfltReading).ts -
            ([witnessReadA, witnessReadB].getD 0 dfltReading).ts : Int) : ℚ)) ∧
      ((preprocess [witnessReadA, witnessReadB]).getD 1 dfltDerived).geral_lps =
        coerceNum ([witnessReadA, witnessReadB].getD 1 dfltReading).geral / 60 :=
  ⟨by decide,
   (claim6_preprocess_fields [witnessReadA, witnessReadB] 1 (by decide)).2.2.2.2.1,
   (claim6_preprocess_fields [witnessReadA, witnessReadB] 1 (by decide)).2.1⟩

/-! ### C2: the anomaly predicate and run membership -/

lemma isAnomalous_iff (thr : ℚ) (r : DerivedReading) :
    isAnomalous thr r = true ↔
      (thr < r.diff_lps ∨ (r.soma_sensores_lps = 0 ∧ 0 < r.geral_lps)) := by
  simp [isAnomalous]

/-- Every member of a run produced by the scan either was already in the
initial buffer or is an anomalous reading of the input. -/
lemma detect_go_mem_anomalous (thr : ℚ) :
    ∀ (rs : List DerivedReading)
      (st : Option (DerivedReading × List DerivedReading))
      (p : DerivedReading × List DerivedReading), p ∈ detect_go thr rs st →
      ∀ r, (r = p.1 ∨ r ∈ p.2) →
        (∃ b0 tl, st = some (b0, tl) ∧ (r = b0 ∨ r ∈ tl)) ∨
          (r ∈ rs ∧ isAnomalous thr r = true) := by
  intro rs
  induction rs with
  | nil =>
    intro st p hp r hr
    cases st with
    | none => simp [detect_go] at hp
    | some b =>
      obtain ⟨b0, tl⟩ := b
      simp only [detect_go, List.mem_singleton] at hp
      subst hp
      exact Or.inl ⟨b0, tl, rfl, hr⟩
  | cons x rs ih =>
    intro st p hp r hr
    cases st with
    | none =>
      by_cases hx : isAnomalous thr x = true
      · rw [show detect_go thr (x :: rs) none =
            detect_go thr rs (some (x, [])) by simp [detect_go, hx]] at hp
        rcases ih (some (x, [])) p hp r hr with ⟨b0, tl, hst, hmem⟩ | ⟨hin, ha⟩
        · obtain ⟨rfl, rfl⟩ : x = b0 ∧ [] = tl := by
            injection hst with h1; exact ⟨congrArg Prod.fst h1, congrArg Prod.snd h1⟩
          rcases hmem with rfl | hmem
          · exact Or.inr ⟨by simp, hx⟩
          · exact absurd hmem (by simp)
        · exact Or.inr ⟨List.mem_cons_of_mem x hin, ha⟩
      · rw [show detect_go thr (x :: rs) none =
            detect_go thr rs none by simp [detect_go, hx]] at hp
        rcases ih none p hp r hr with ⟨b0, tl, hst, _⟩ | ⟨hin, ha⟩
        · exact absurd hst (by simp)
        · exact Or.inr ⟨List.mem_cons_of_mem x hin, ha⟩
    | some b =>
      obtain ⟨b0, tl⟩ := b
      by_cases hx : isAnomalous thr x = true
      · rw [show detect_go thr (x :: rs) (some (b0, tl)) =
            detect_go thr rs (some (b0, tl ++ [x])) by simp [detect_go, hx]] at hp
        rcases ih (some (b0, tl ++ [x])) p hp r hr with ⟨b0', tl', hst, hmem⟩ | ⟨hin, ha⟩
        · obtain ⟨rfl, rfl⟩ : b0 = b0' ∧ tl ++ [x] = tl' := by
            injection hst with h1; exact ⟨congrArg Prod.fst h1, congrArg Prod.snd h1⟩
          rcases hmem with rfl | hmem
          · exact Or.inl ⟨r, tl, rfl, Or.inl rfl⟩
          · rcases List.mem_append.mp hmem with hmem | hmem
            · exact Or.inl ⟨b0, tl, rfl, Or.inr hmem⟩
            · have : r = x := by simpa using hmem
              subst this
              exact Or.inr ⟨List.mem_cons_self r rs, hx⟩
        · exact Or.inr ⟨List.mem_cons_of_mem x hin, ha⟩
      · rw [show detect_go thr (x :: rs) (some (b0, tl)) =
            (b0, tl) :: detect_go thr rs none by simp [detect_go, hx]] at hp
        rcases List.mem_cons.mp hp with rfl | hp
        · exact Or.inl ⟨b0, tl, rfl, hr⟩
        · rcases ih none p hp r hr with ⟨b0', tl', hst, _⟩ | ⟨hin, ha⟩
          · exact absurd hst (by simp)
          · exact Or.inr ⟨List.mem_cons_of_mem x hin, ha⟩

/-- A buffered run that is open when the scan continues is eventually
emitted, with the open buffer as an initial segment. -/
lemma detect_go_extends (thr : ℚ) :
    ∀ (rs : List DerivedReading) (b0 : DerivedReading)
      (tl : List DerivedReading),
      ∃ ext, (b0, tl ++ ext) ∈ detect_go thr rs (some (b0, tl)) := by
  intro rs
  induction rs with
  | nil => intro b0 tl; exact ⟨[], by simp [detect_go]⟩
  | cons x rs ih =>
    intro b0 tl
    by_cases hx : isAnomalous thr x = true
    · obtain ⟨ext, hext⟩ := ih b0 (tl ++ [x])
      refine ⟨x :: ext, ?_⟩
      rw [show detect_go thr (x :: rs) (some (b0, tl)) =
          detect_go thr rs (some (b0, tl ++ [x])) by simp [detect_go, hx]]
      simpa [List.append_assoc] using hext
    · refine ⟨[], ?_⟩
      rw [show detect_go thr (x :: rs) (some (b0, tl)) =
          (b0, tl) :: detect_go thr rs none by simp [detect_go, hx]]
      simp

/-- Every anomalous reading of the input ends up in some emitted run. -/
lemma detect_go_complete (thr : ℚ) :
    ∀ (rs : List DerivedReading)
      (st : Option (DerivedReading × List DerivedReading))
      (r : DerivedReading), r ∈ rs → isAnomalous thr r = true →
      ∃ p ∈ detect_go thr rs st, r = p.1 ∨ r ∈ p.2 := by
  intro rs
  induction rs with
  | nil => intro st r hr _; exact absurd hr (by simp)
  | cons x rs ih =>
    intro st r hr ha
    cases st with
    | none =>
      by_cases hx : isAnomalous thr x = true
      · rw [show detect_go thr (x :: rs) none =
            detect_go thr rs (some (x, [])) by simp [detect_go, hx]]
        rcases List.mem_cons.mp hr with rfl | hr
        · obtain ⟨ext, hext⟩ := detect_go_extends thr rs r []
          exact ⟨(r, [] ++ ext), hext, Or.inl rfl⟩
        · exact ih (some (x, [])) r hr ha
      · rcases List.mem_cons.mp hr with rfl | hr
        · exact absurd ha hx
        · rw [show detect_go thr (x :: rs) none =
              detect_go thr rs none by simp [detect_go, hx]]
          exact ih none r hr ha
    | some b =>
      obtain ⟨b0, tl⟩ := b
      by_cases hx : isAnomalous thr x = true
      · rw [show detect_go thr (x :: rs) (some (b0, tl)) =
            detect_go thr rs (some (b0, tl ++ [x])) by simp [detect_go, hx]]
        rcases List.mem_cons.mp hr with rfl | hr
        · obtain ⟨ext, hext⟩ := detect_go_extends thr rs b0 (tl ++ [r])
          refine ⟨(b0, tl ++ [r] ++ ext), hext, Or.inr ?_⟩
          simp
        · exact ih (some (b0, tl ++ [x])) r hr ha
      · rw [show detect_go thr (x :: rs) (some (b0, tl)) =
            (b0, tl) :: detect_go thr rs none by simp [detect_go, hx]]
        rcases List.mem_cons.mp hr with rfl | hr
        · exact absurd ha hx
        · obtain ⟨p, hp, hmem⟩ := ih none r hr ha
          exact ⟨p, List.mem_cons_of_mem _ hp, hmem⟩

/-- C2: `detect_leaks` treats a reading as anomalous exactly when
`rate_discrepancy > threshold` or (`sensor_rate_sum = 0` and
`general_rate_normalized > 0`), and a reading of the input belongs to
some buffered run emitted by the scan (hence to some LeakEvent, since
`detect_leaks` summarises exactly these runs) exactly when that
predicate holds on it. -/
theorem claim2_anomaly_membership (df : List DerivedReading) (thr : ℚ)
    (r : DerivedReading) (_hthr : 0 ≤ thr) (hr : r ∈ df) :
    (isAnomalous thr r = true ↔
      (thr < r.diff_lps ∨ (r.soma_sensores_lps = 0 ∧ 0 < r.geral_lps))) ∧
    ((thr < r.diff_lps ∨ (r.soma_sensores_lps = 0 ∧ 0 < r.geral_lps)) ↔
      ∃ p ∈ detect_runs thr df, r = p.1 ∨ r ∈ p.2) := by
  refine ⟨isAnomalous_iff thr r, ?_, ?_⟩
  · intro h
    exact detect_go_complete thr df none r hr ((isAnomalous_iff thr r).mpr h)
  · rintro ⟨p, hp, hmem⟩
    rcases detect_go_mem_anomalous thr df none p hp r hmem with
      ⟨b0, tl, habs, _⟩ | ⟨_, ha⟩
    · exact absurd habs (by simp)
    · exact (isAnomalous_iff thr r).mp ha

theorem claim2_witness :
    (0 : ℚ) ≤ THRESH_LPS ∧ scenarioRow 2 1 ∈ scenarioDf ∧
      ((THRESH_LPS < (scenarioRow 2 1).diff_lps ∨
          ((scenarioRow 2 1).soma_sensores_lps = 0 ∧
            0 < (scenarioRow 2 1).geral_lps)) ↔
        ∃ p ∈ detect_runs THRESH_LPS scenarioDf,
          scenarioRow 2 1 = p.1 ∨ scenarioRow 2 1 ∈ p.2) :=
  ⟨by norm_num [THRESH_LPS], by simp [scenarioDf],
   (claim2_anomaly_membership scenarioDf THRESH_LPS (scenarioRow 2 1)
      (by norm_num [THRESH_LPS]) (by simp [scenarioDf])).2⟩

/-! ### C3: the open run is closed at end of stream -/

section LastLemmas

variable {α β : Type}

lemma getLast?_cons_of_getLast? {l : List α} {x : α} (a : α)
    (h : l.getLast? = some x) : (a :: l).getLast? = some x := by
  cases l with
  | nil => simp at h
  | cons b m => rw [List.getLast?_cons_cons]; exact h

lemma getLast?_map (f : α → β) (l : List α) :
    (l.map f).getLast? = (l.getLast?).map f := by
  induction l with
  | nil => rfl
  | cons a l ih =>
    cases l with
    | nil => rfl
    | cons b m =>
      simp only [List.map_cons, List.getLast?_cons_cons] at *
      exact ih

end LastLemmas

/-- If the last input reading is anomalous, the scan's last emitted run
has that reading as its last buffered member. -/
lemma detect_go_last_of_anomalous (thr : ℚ) :
    ∀ (rs : List DerivedReading)
      (st : Option (DerivedReading × List DerivedReading))
      (r : DerivedReading),
      rs.getLast? = some r → isAnomalous thr r = true →
      ∃ q : DerivedReading × List DerivedReading,
        (detect_go thr rs st).getLast? = some q ∧
          (q.1 :: q.2).getLast? = some r := by
  intro rs
  induction rs with
  | nil => intro st r h; simp at h
  | cons x rs ih =>
    intro st r hlast ha
    cases rs with
    | nil =>
      have hx : x = r := by simpa using hlast
      subst hx
      cases st with
      | none =>
        rw [show detect_go thr [x] none =
            detect_go thr [] (some (x, [])) by simp [detect_go, ha]]
        exact ⟨(x, []), by simp [detect_go], by simp⟩
      | some b =>
        obtain ⟨b0, tl⟩ := b
        rw [show detect_go thr [x] (some (b0, tl)) =
            detect_go thr [] (some (b0, tl ++ [x])) by simp [detect_go, ha]]
        refine ⟨(b0, tl ++ [x]), by simp [detect_go], ?_⟩
        show (b0 :: (tl ++ [x])).getLast? = some x
        rw [show b0 :: (tl ++ [x]) = (b0 :: tl) ++ [x] by simp]
        exact List.getLast?_concat _
    | cons y ys =>
      have hlast' : (y :: ys).getLast? = some r := by
        rw [List.getLast?_cons_cons] at hlast; exact hlast
      cases st with
      | none =>
        by_cases hx : isAnomalous thr x = true
        · rw [show detect_go thr (x :: y :: ys) none =
              detect_go thr (y :: ys) (some (x, [])) by simp [detect_go, hx]]
          exact ih (some (x, [])) r hlast' ha
        · rw [show detect_go thr (x :: y :: ys) none =
              detect_go thr (y :: ys) none by simp [detect_go, hx]]
          exact ih none r hlast' ha
      | some b =>
        obtain ⟨b0, tl⟩ := b
        by_cases hx : isAnomalous thr x = true
        · rw [show detect_go thr (x :: y :: ys) (some (b0, tl)) =
              detect_go thr (y :: ys) (some (b0, tl ++ [x])) by
                simp [detect_go, hx]]
          exact ih (some (b0, tl ++ [x])) r hlast' ha
        · rw [show detect_go thr (x :: y :: ys) (some (b0, tl)) =
              (b0, tl) :: detect_go thr (y :: ys) none by simp [detect_go, hx]]
          obtain ⟨q, hq1, hq2⟩ := ih none r hlast' ha
          exact ⟨q, getLast?_cons_of_getLast? _ hq1, hq2⟩

/-- The `end` field of a closed event is the timestamp of the last
buffered reading. -/
lemma closeEvent_stop (b0 : DerivedReading) (tl : List DerivedReading)
    (r : DerivedReading) (h : (b0 :: tl).getLast? = some r) :
    (closeEvent b0 tl).stop = r.ts := by
  rw [List.getLast?_eq_getLast (b0 :: tl) (List.cons_ne_nil b0 tl)] at h
  have h2 : (b0 :: tl).getLast (List.cons_ne_nil b0 tl) = r :=
    Option.some_injective _ h
  show ((b0 :: tl).getLast (List.cons_ne_nil b0 tl)).ts = r.ts
  rw [h2]

/-- C3: if the input sequence is non-empty and its last reading is
anomalous, `detect_leaks` emits the still-open run: its last returned
LeakEvent has `end` equal to the last reading's timestamp, so no open
run is dropped because the stream ended during an anomaly. -/
theorem claim3_end_of_stream (df : List DerivedReading) (thr : ℚ)
    (r : DerivedReading) (hlast : df.getLast? = some r)
    (ha : thr < r.diff_lps ∨ (r.soma_sensores_lps = 0 ∧ 0 < r.geral_lps)) :
    ∃ e, (detect_leaks df thr).getLast? = some e ∧ e.stop = r.ts := by
  obtain ⟨q, hq1, hq2⟩ := detect_go_last_of_anomalous thr df none r hlast
    ((isAnomalous_iff thr r).mpr ha)
  refine ⟨closeEvent q.1 q.2, ?_, closeEvent_stop q.1 q.2 r hq2⟩
  show ((detect_runs thr df).map fun p => closeEvent p.1 p.2).getLast? = _
  rw [getLast?_map]
  rw [show (detect_runs thr df).getLast? = some q from hq1]
  rfl

/-- Witness data for C3: a two-reading stream that ends anomalous. -/
def witnessDfC3 : List DerivedReading := [scenarioRow 0 0, scenarioRow 6 1]

theorem claim3_witness :
    witnessDfC3.getLast? = some (scenarioRow 6 1) ∧
      (THRESH_LPS < (scenarioRow 6 1).diff_lps ∨
        ((scenarioRow 6 1).soma_sensores_lps = 0 ∧
          0 < (scenarioRow 6 1).geral_lps)) ∧
      ∃ e, (detect_leaks witnessDfC3 THRESH_LPS).getLast? = some e ∧
        e.stop = (scenarioRow 6 1).ts :=
  ⟨by simp [witnessDfC3],
   Or.inl (by norm_num [scenarioRow, THRESH_LPS]),
   claim3_end_of_stream witnessDfC3 THRESH_LPS (scenarioRow 6 1)
     (by simp [witnessDfC3])
     (Or.inl (by norm_num [scenarioRow, THRESH_LPS]))⟩

/-! ### C4, C5: fields of an emitted event -/

lemma le_foldl_max_init (l : List ℚ) : ∀ a : ℚ, a ≤ l.foldl max a := by
  induction l with
  | nil => intro a; exact le_refl a
  | cons x l ih =>
    intro a
    exact le_trans (le_max_left a x) (ih (max a x))

lemma le_foldl_max_of_mem (l : List ℚ) :
    ∀ (a x : ℚ), x ∈ l → x ≤ l.foldl max a := by
  induction l with
  | nil => intro a x hx; exact absurd hx (by simp)
  | cons y l ih =>
    intro a x hx
    rcases List.mem_cons.mp hx with rfl | hx
    · exact le_trans (le_max_right a x) (le_foldl_max_init l (max a x))
    · exact ih (max a y) x hx

lemma foldl_max_cases (l : List ℚ) :
    ∀ a : ℚ, l.foldl max a = a ∨ l.foldl max a ∈ l := by
  induction l with
  | nil => intro a; exact Or.inl rfl
  | cons y l ih =>
    intro a
    simp only [List.foldl_cons]
    rcases ih (max a y) with h | h
    · rcases max_choice a y with hm | hm
      · exact Or.inl (by rw [h, hm])
      · exact Or.inr (by rw [h, hm]; exact List.mem_cons_self y l)
    · exact Or.inr (List.mem_cons_of_mem y h)

lemma foldl_max_proj (tl : List DerivedReading) :
    ∀ a : ℚ, tl.foldl (fun m r => max m r.diff_lps) a =
      (tl.map fun r => r.diff_lps).foldl max a := by
  induction tl with
  | nil => intro a; rfl
  | cons r tl ih => intro a; simp only [List.foldl_cons, List.map_cons]; exact ih _

/-- The classification computed by `closeEvent`, extracted. -/
lemma closeEvent_type (b0 : DerivedReading) (tl : List DerivedReading) :
    (closeEvent b0 tl).type =
      if (∀ r ∈ b0 :: tl, r.soma_sensores_lps = 0) ∧
          (∃ r ∈ b0 :: tl, 0 < r.geral_lps)
      then LeakType.hidden_leak else LeakType.mismatch := rfl

/-- C4: an emitted run is classified `hidden_leak` exactly when every
buffered member has `sensor_rate_sum = 0` and at least one member has
`general_rate_normalized > 0`; otherwise it is `mismatch` — in
particular whenever some member has a nonzero sensor sum (a run
triggered purely by `rate_discrepancy > threshold`). -/
theorem claim4_classification (df : List DerivedReading) (thr : ℚ)
    (b0 : DerivedReading) (tl : List DerivedReading)
    (hmem : (b0, tl) ∈ detect_runs thr df) :
    closeEvent b0 tl ∈ detect_leaks df thr ∧
      ((closeEvent b0 tl).type = LeakType.hidden_leak ↔
        ((∀ r ∈ b0 :: tl, r.soma_sensores_lps = 0) ∧
          ∃ r ∈ b0 :: tl, 0 < r.geral_lps)) ∧
      ((∃ r ∈ b0 :: tl, r.soma_sensores_lps ≠ 0) →
        (closeEvent b0 tl).type = LeakType.mismatch) := by
  refine ⟨List.mem_map.mpr ⟨(b0, tl), hmem, rfl⟩, ?_, ?_⟩
  · by_cases hc : (∀ r ∈ b0 :: tl, r.soma_sensores_lps = 0) ∧
        ∃ r ∈ b0 :: tl, 0 < r.geral_lps
    · rw [closeEvent_type, if_pos hc]
      exact ⟨fun _ => hc, fun _ => rfl⟩
    · rw [closeEvent_type, if_neg hc]
      exact ⟨fun h => absurd h (by simp), fun h => absurd h hc⟩
  · rintro ⟨r, hr, hne⟩
    have hc : ¬((∀ r ∈ b0 :: tl, r.soma_sensores_lps = 0) ∧
        ∃ r ∈ b0 :: tl, 0 < r.geral_lps) := fun ⟨hall, _⟩ => hne (hall r hr)
    rw [closeEvent_type, if_neg hc]

theorem claim4_witness :
    (scenarioRow 2 1, [scenarioRow 3 1]) ∈ detect_runs THRESH_LPS scenarioDf ∧
      ((closeEvent (scenarioRow 2 1) [scenarioRow 3 1]).type =
          LeakType.hidden_leak ↔
        ((∀ r ∈ scenarioRow 2 1 :: [scenarioRow 3 1],
            r.soma_sensores_lps = 0) ∧
          ∃ r ∈ scenarioRow 2 1 :: [scenarioRow 3 1], 0 < r.geral_lps)) :=
  ⟨by norm_num [detect_runs, detect_go, isAnomalous, THRESH_LPS, scenarioDf,
      scenarioRow],
   (claim4_classification scenarioDf THRESH_LPS (scenarioRow 2 1)
      [scenarioRow 3 1]
      (by norm_num [detect_runs, detect_go, isAnomalous, THRESH_LPS,
        scenarioDf, scenarioRow])).2.1⟩

/-- C5: for every emitted event: `end` is the timestamp of the last
buffered (anomalous) reading — the terminating non-anomalous reading is
not part of the event; `duration_s` is end − start in seconds when the
run has more than one member and the single member's `elapsed_seconds`
otherwise; `max_diff_lps` is the maximum `rate_discrepancy` over the
buffered members; and `volume_l` is the sum of `volume_general` over
the buffered members. -/
theorem claim5_event_fields (df : List DerivedReading) (thr : ℚ)
    (b0 : DerivedReading) (tl : List DerivedReading)
    (hmem : (b0, tl) ∈ detect_runs thr df) :
    closeEvent b0 tl ∈ detect_leaks df thr ∧
      (closeEvent b0 tl).stop =
        ((b0 :: tl).getLast (List.cons_ne_nil b0 tl)).ts ∧
      (tl ≠ [] → (closeEvent b0 tl).duration_s =
        (((closeEvent b0 tl).stop - (closeEvent b0 tl).start : Int) : ℚ)) ∧
      (tl = [] → (closeEvent b0 tl).duration_s = b0.delta_s) ∧
      (∀ r ∈ b0 :: tl, r.diff_lps ≤ (closeEvent b0 tl).max_diff_lps) ∧
      ((closeEvent b0 tl).max_diff_lps = b0.diff_lps ∨
        ∃ r ∈ tl, (closeEvent b0 tl).max_diff_lps = r.diff_lps) ∧
      (closeEvent b0 tl).volume_l =
        ((b0 :: tl).map fun r => r.volume_geral_l).sum := by
  have hdur : (closeEvent b0 tl).duration_s =
      if 1 < (b0 :: tl).length then
        ((((b0 :: tl).getLast (List.cons_ne_nil b0 tl)).ts - b0.ts : Int) : ℚ)
      else ((b0 :: tl).map fun r => r.delta_s).sum := rfl
  have hmax : (closeEvent b0 tl).max_diff_lps =
      (tl.map fun r => r.diff_lps).foldl max b0.diff_lps := by
    show tl.foldl (fun m r => max m r.diff_lps) b0.diff_lps = _
    exact foldl_max_proj tl b0.diff_lps
  refine ⟨List.mem_map.mpr ⟨(b0, tl), hmem, rfl⟩, rfl, ?_, ?_, ?_, ?_, rfl⟩
  · intro htl
    have hlen : 1 < (b0 :: tl).length := by
      cases tl with
      | nil => exact absurd rfl htl
      | cons y ys => simp
    rw [hdur, if_pos hlen]
    rfl
  · intro htl
    subst htl
    rw [hdur]
    simp
  · intro r hr
    rw [hmax]
    rcases List.mem_cons.mp hr with rfl | hr
    · exact le_foldl_max_init _ _
    · exact le_foldl_max_of_mem _ _ _ (List.mem_map.mpr ⟨r, hr, rfl⟩)
  · rw [hmax]
    rcases foldl_max_cases (tl.map fun r => r.diff_lps) b0.diff_lps with h | h
    · exact Or.inl h
    · obtain ⟨r, hr, hval⟩ := List.mem_map.mp h
      exact Or.inr ⟨r, hr, hval.symm⟩

theorem claim5_witness :
    (scenarioRow 2 1, [scenarioRow 3 1]) ∈ detect_runs THRESH_LPS scenarioDf ∧
      (closeEvent (scenarioRow 2 1) [scenarioRow 3 1]).stop =
        ((scenarioRow 2 1 :: [scenarioRow 3 1]).getLast
          (List.cons_ne_nil (scenarioRow 2 1) [scenarioRow 3 1])).ts ∧
      (closeEvent (scenarioRow 2 1) [scenarioRow 3 1]).volume_l =
        ((scenarioRow 2 1 :: [scenarioRow 3 1]).map
          fun r => r.volume_geral_l).sum :=
  ⟨by norm_num [detect_runs, detect_go, isAnomalous, THRESH_LPS, scenarioDf,
      scenarioRow],
   (claim5_event_fields scenarioDf THRESH_LPS (scenarioRow 2 1)
      [scenarioRow 3 1]
      (by norm_num [detect_runs, detect_go, isAnomalous, THRESH_LPS,
        scenarioDf, scenarioRow])).2.1,
   (claim5_event_fields scenarioDf THRESH_LPS (scenarioRow 2 1)
      [scenarioRow 3 1]
      (by norm_num [detect_runs, detect_go, isAnomalous, THRESH_LPS,
        scenarioDf, scenarioRow])).2.2.2.2.2.2⟩

/-! ### C7: load_data ordering and timestamp-parse failure -/

lemma parseTimestamps_eq_none (rows : List RawRow) (r : RawRow)
    (hr : r ∈ rows) (h : r.ts_raw = none) : parseTimestamps rows = none := by
  induction rows with
  | nil => exact absurd hr (by simp)
  | cons x rs ih =>
    rcases List.mem_cons.mp hr with rfl | hm
    · cases hp : parseTimestamps rs <;> simp [parseTimestamps, h, hp]
    · cases hx : x.ts_raw <;> simp [parseTimestamps, hx, ih hm]

/-- A row whose timestamp fails to parse makes `load_data` raise; at
this concrete one-row input the result is an exception, not the table
with the bad row discarded (which would be `Except.ok []`).  This
refutes C7's discard clause: `pd.to_datetime` is called with its
default `errors='raise'`. -/
def badTsRow : RawRow := { ts_raw := none, geral := some 1, sensors := [] }

theorem claim7_counterexample :
    load_data (some [badTsRow]) = Except.error () := rfl

/-- C7 (amended): `load_data` sorts the parsed rows ascending by
timestamp (tie order left unspecified: `sort_values` uses an unstable
quicksort, so the output is stated as a sorted permutation), and an
unparseable timestamp anywhere in the input makes `load_data` raise —
the row is not discarded. -/
theorem claim7_amended (rows : List RawRow) :
    ((∃ r ∈ rows, r.ts_raw = none) →
      load_data (some rows) = Except.error ()) ∧
      (∀ base, parseTimestamps rows = some base →
        ∃ out, load_data (some rows) = Except.ok out ∧
          List.Pairwise (fun a b : Reading => a.ts ≤ b.ts) out ∧
          out.Perm base) := by
  constructor
  · rintro ⟨r, hr, hnone⟩
    have hp : parseTimestamps rows = none := parseTimestamps_eq_none rows r hr hnone
    show (match parseTimestamps rows with
      | none => Except.error ()
      | some rs => Except.ok (rs.mergeSort fun a b => decide (a.ts ≤ b.ts))) =
        Except.error ()
    rw [hp]
  · intro base hbase
    refine ⟨base.mergeSort fun a b => decide (a.ts ≤ b.ts), ?_, ?_, ?_⟩
    · show (match parseTimestamps rows with
        | none => Except.error ()
        | some rs => Except.ok (rs.mergeSort fun a b => decide (a.ts ≤ b.ts))) = _
      rw [hbase]
    · have hs := @List.sorted_mergeSort Reading
        (fun a b : Reading => decide (a.ts ≤ b.ts))
        (fun a b c hab hbc => by
          simp only [decide_eq_true_eq] at *
          exact le_trans hab hbc)
        (fun a b => by
          simp only [Bool.or_eq_true, decide_eq_true_eq]
          exact Int.le_total a.ts b.ts)
        base
      exact hs.imp (fun h => by simpa using h)
    · exact List.mergeSort_perm base _

/-- Witness rows for C7: two parseable rows out of timestamp order plus
a separate unparseable one. -/
def witnessRawA : RawRow := { ts_raw := some 10, geral := some 1, sensors := [some 1] }

def witnessRawB : RawRow := { ts_raw := some 20, geral := none, sensors := [] }

def witnessBadRaw : RawRow := { ts_raw := none, geral := none, sensors := [some 2] }

theorem claim7_witness :
    ((∃ r ∈ [witnessRawA, witnessBadRaw], r.ts_raw = none) ∧
      load_data (some [witnessRawA, witnessBadRaw]) = Except.error ()) ∧
      parseTimestamps [witnessRawB, witnessRawA] =
        some [{ ts := 20, geral := none, sensors := [] },
              { ts := 10, geral := some 1, sensors := [some 1] }] ∧
      (∃ out, load_data (some [witnessRawB, witnessRawA]) = Except.ok out ∧
        List.Pairwise (fun a b : Reading => a.ts ≤ b.ts) out ∧
        out.Perm [{ ts := 20, geral := none, sensors := [] },
                  { ts := 10, geral := some 1, sensors := [some 1] }]) :=
  ⟨⟨⟨witnessBadRaw, by simp, rfl⟩,
    (claim7_amended [witnessRawA, witnessBadRaw]).1
      ⟨witnessBadRaw, by simp, rfl⟩⟩,
   rfl,
   (claim7_amended [witnessRawB, witnessRawA]).2
     [{ ts := 20, geral := none, sensors := [] },
      { ts := 10, geral := some 1, sensors := [some 1] }] rfl⟩

/-! ### C8: aggregate_period -/

lemma addVec_getD : ∀ (xs ys : List ℚ) (i : Nat),
    (addVec xs ys).getD i 0 = xs.getD i 0 + ys.getD i 0 := by
  intro xs
  induction xs with
  | nil => intro ys i; simp [addVec]
  | cons x xs ih =>
    intro ys i
    cases ys with
    | nil => simp [addVec]
    | cons y ys =>
      cases i with
      | zero => simp [addVec]
      | succ n =>
        simp only [addVec, List.getD_cons_succ]
        exact ih ys n

lemma sumVec_getD : ∀ (ls : List (List ℚ)) (i : Nat),
    (sumVec ls).getD i 0 = (ls.map fun l => l.getD i 0).sum := by
  intro ls
  induction ls with
  | nil => intro i; simp [sumVec]
  | cons l ls ih =>
    intro i
    show (addVec l (sumVec ls)).getD i 0 = _
    rw [addVec_getD, ih]
    simp

lemma aggregate_period_cons (x : DerivedReading) (xs : List DerivedReading)
    (freq : Freq) :
    aggregate_period (x :: xs) freq =
      ((((x :: xs).map fun r => bucketKey freq r.ts).dedup).mergeSort
        fun a b => decide (a ≤ b)).map (bucketRow freq (x :: xs)) := rfl

/-- C8 (amended): for every input and every bucket width,
`aggregate_period` returns, for each occupied bucket and in ascending
label order, the sums of `volume_geral_l`, `volume_sensores_l` and of
each sensor's RAW RATE column over the readings falling in the bucket,
together with `m3 = volume_geral_l / 1000` and
`custo = m3 * TARIFA_POR_M3`; every reading falls in some returned
bucket.  (The per-sensor column sums rates, not volume contributions,
and the W/M labels are the pandas right edges — see the
counterexample.) -/
theorem claim8_amended (df : List DerivedReading) (freq : Freq) :
    (∀ b ∈ aggregate_period df freq,
      b.volume_geral_l = ((df.filter fun r =>
        decide (bucketKey freq r.ts = b.key)).map fun r => r.volume_geral_l).sum ∧
      b.volume_sensores_l = ((df.filter fun r =>
        decide (bucketKey freq r.ts = b.key)).map fun r => r.volume_sensores_l).sum ∧
      (∀ i, b.sensors.getD i 0 = ((df.filter fun r =>
        decide (bucketKey freq r.ts = b.key)).map fun r => r.sensors.getD i 0).sum) ∧
      b.m3 = b.volume_geral_l / 1000 ∧
      b.custo = b.m3 * TARIFA_POR_M3) ∧
    (∀ r ∈ df, ∃ b ∈ aggregate_period df freq,
      b.key = bucketKey freq r.ts) ∧
    List.Pairwise (fun a b : AggRow => a.key ≤ b.key)
      (aggregate_period df freq) := by
  refine ⟨?_, ?_, ?_⟩
  · intro b hb
    cases df with
    | nil => exact absurd hb (by simp [aggregate_period])
    | cons x xs =>
      rw [aggregate_period_cons] at hb
      obtain ⟨k, hk, rfl⟩ := List.mem_map.mp hb
      refine ⟨rfl, rfl, ?_, rfl, rfl⟩
      intro i
      show (sumVec (((x :: xs).filter fun r =>
          decide (bucketKey freq r.ts = k)).map fun r => r.sensors)).getD i 0 =
        (((x :: xs).filter fun r =>
          decide (bucketKey freq r.ts = k)).map fun r => r.sensors.getD i 0).sum
      rw [sumVec_getD, List.map_map]
      rfl
  · intro r hr
    cases df with
    | nil => exact absurd hr (by simp)
    | cons x xs =>
      have hk : bucketKey freq r.ts ∈
          (((x :: xs).map fun s => bucketKey freq s.ts).dedup).mergeSort
            (fun a b => decide (a ≤ b)) := by
        rw [List.mem_mergeSort, List.mem_dedup]
        exact List.mem_map.mpr ⟨r, hr, rfl⟩
      exact ⟨bucketRow freq (x :: xs) (bucketKey freq r.ts),
        List.mem_map.mpr ⟨_, hk, rfl⟩, rfl⟩
  · cases df with
    | nil => exact List.Pairwise.nil
    | cons x xs =>
      have hs := @List.sorted_mergeSort Int (fun a b : Int => decide (a ≤ b))
        (fun a b c hab hbc => by
          simp only [decide_eq_true_eq] at *
          exact le_trans hab hbc)
        (fun a b => by
          simp only [Bool.or_eq_true, decide_eq_true_eq]
          exact Int.le_total a b)
        (((x :: xs).map fun r => bucketKey freq r.ts).dedup)
      rw [aggregate_period_cons]
      exact List.pairwise_map.mpr (hs.imp fun h => by simpa using h)

/-- C8 counterexample data.  `cexRowT`: one reading spanning 2 seconds
with sensor 0 flowing at 1 L/s — its volume contribution is 2 L, but
the aggregated per-sensor column holds 1 (the code sums the raw rate
columns `S1..S4`, line 116, not sensor volumes).  `cexRowW` at t = 0
(Thursday 1970-01-01) and `cexRowM` at 1970-01-15: pandas labels the
weekly bucket by the ending Sunday 1970-01-04 (day 3) and the monthly
bucket by the month end 1970-01-31 (day 30) — both strictly AFTER every
timestamp in the bucket, so neither label can be the bucket start. -/
def cexRowT : DerivedReading :=
  { ts := 0, geral_lps := 1, soma_sensores_lps := 1, sensors := [1, 0, 0, 0],
    delta_s := 2, volume_geral_l := 2, volume_sensores_l := 2, diff_lps := 0 }

def cexRowW : DerivedReading :=
  { ts := 0, geral_lps := 1, soma_sensores_lps := 1, sensors := [1, 0, 0, 0],
    delta_s := 1, volume_geral_l := 1, volume_sensores_l := 1, diff_lps := 0 }

def cexRowM : DerivedReading :=
  { ts := 1209600, geral_lps := 1, soma_sensores_lps := 1,
    sensors := [1, 0, 0, 0], delta_s := 1, volume_geral_l := 1,
    volume_sensores_l := 1, diff_lps := 0 }

theorem claim8_counterexample :
    ((aggregate_period [cexRowT] Freq.T).getD 0 dfltAgg).sensors.getD 0 0 = 1 ∧
      cexRowT.sensors.getD 0 0 * cexRowT.delta_s = 2 ∧ (1 : ℚ) ≠ 2 ∧
      ((aggregate_period [cexRowW] Freq.W).getD 0 dfltAgg).key = 259200 ∧
      cexRowW.ts = 0 ∧ (0 : Int) < 259200 ∧
      ((aggregate_period [cexRowM] Freq.M).getD 0 dfltAgg).key = 2592000 ∧
      cexRowM.ts = 1209600 ∧ (1209600 : Int) < 2592000 := by
  have hT : bucketKey Freq.T cexRowT.ts = 0 := by decide
  have hW : bucketKey Freq.W cexRowW.ts = 259200 := by decide
  have hM : bucketKey Freq.M cexRowM.ts = 2592000 := by decide
  refine ⟨?_, by norm_num [cexRowT], by norm_num, ?_, rfl, by decide, ?_,
    rfl, by decide⟩
  · rw [show aggregate_period [cexRowT] Freq.T =
        [bucketRow Freq.T [cexRowT] 0] by
      rw [aggregate_period_cons]
      simp [hT]]
    have hT0 : bucketKey Freq.T (0 : Int) = 0 := by decide
    norm_num [bucketRow, hT0, sumVec, addVec, cexRowT, List.filter_cons]
  · rw [show aggregate_period [cexRowW] Freq.W =
        [bucketRow Freq.W [cexRowW] 259200] by
      rw [aggregate_period_cons]
      simp [hW]]
    rfl
  · rw [show aggregate_period [cexRowM] Freq.M =
        [bucketRow Freq.M [cexRowM] 2592000] by
      rw [aggregate_period_cons]
      simp [hM]]
    rfl

/-- Witness data for C8: a single reading aggregated by minute. -/
def witnessAggRow : DerivedReading :=
  { ts := 30, geral_lps := 2, soma_sensores_lps := 1, sensors := [1, 0],
    delta_s := 5, volume_geral_l := 10, volume_sensores_l := 5,
    diff_lps := 1 }

theorem claim8_witness :
    witnessAggRow ∈ [witnessAggRow] ∧
      (∃ b ∈ aggregate_period [witnessAggRow] Freq.T,
        b.key = bucketKey Freq.T witnessAggRow.ts) ∧
      (bucketRow Freq.T [witnessAggRow] 0 ∈
          aggregate_period [witnessAggRow] Freq.T ∧
        (bucketRow Freq.T [witnessAggRow] 0).m3 =
          (bucketRow Freq.T [witnessAggRow] 0).volume_geral_l / 1000 ∧
        (bucketRow Freq.T [witnessAggRow] 0).custo =
          (bucketRow Freq.T [witnessAggRow] 0).m3 * TARIFA_POR_M3) := by
  have hT : bucketKey Freq.T witnessAggRow.ts = 0 := by decide
  have hmem : bucketRow Freq.T [witnessAggRow] 0 ∈
      aggregate_period [witnessAggRow] Freq.T := by
    rw [show aggregate_period [witnessAggRow] Freq.T =
        [bucketRow Freq.T [witnessAggRow] 0] by
      rw [aggregate_period_cons]
      simp [hT]]
    simp
  have h1 := (claim8_amended [witnessAggRow] Freq.T).1
    (bucketRow Freq.T [witnessAggRow] 0) hmem
  exact ⟨by simp,
    (claim8_amended [witnessAggRow] Freq.T).2.1 witnessAggRow (by simp),
    hmem, h1.2.2.2.1, h1.2.2.2.2⟩

end AquaFlow
